import Mathlib

/-!
Shallow embedding of the svelte-phrase-chain i18n core
(`src/lib/i18n.svelte.ts`) and of its zod-based bundle validator
(`i18nSchema.ts`), together with proofs about the key-resolution,
pluralization, interpolation, locale-switch, configuration and
validation behaviour.

Machine-level conventions of the embedding:
* JavaScript objects holding translations are association lists in
  insertion order; `lookupStr` models property access / the `in` test.
* JavaScript numbers that the claims touch are integers, modelled as `Int`.
* Environment-dependent primitives (`Intl.*`, `Date` parsing and
  printing, `Date.now`-based relative formatting) are collected in a
  `FormatEnv` record of uninterpreted functions; theorems quantify over
  the environment, and witnesses instantiate it concretely.
* Console output is modelled as a list of structured `LogEvent`s;
  debug-only `console.log` calls that carry no specified observable
  behaviour are omitted.
-/

namespace PhraseChain

/-- The closed locale set of `src/lib/i18n.svelte.ts`
(`type Locale = 'en' | 'es' | 'fr'`). -/
inductive Locale where
  | en
  | es
  | fr
deriving DecidableEq, Repr

/-- `interface I18nConfig` from the source. -/
structure I18nConfig where
  persistLocale : Bool
  localStorageKey : String
  fallbackLocale : Locale
  debug : Bool
deriving DecidableEq, Repr

/-- `TranslationValue = string | PluralObject | NestedTranslations`:
a translation tree value is a template string or an object mapping keys
to sub-values.  A `PluralObject` is an object whose values happen to be
strings, exactly as in JavaScript, so it needs no separate constructor. -/
inductive TValue where
  | str (s : String)
  | node (entries : List (String × TValue))

/-- A translation bundle: the root object of one locale's tree. -/
abbrev Bundle := List (String × TValue)

/-- Property lookup on a JavaScript object modelled as an association
list (first binding wins; JS objects cannot hold duplicate keys). -/
def lookupStr (k : String) : List (String × α) → Option α
  | [] => none
  | (k', v) :: rest => if k' = k then some v else lookupStr k rest

/-- `String.prototype.split(sep)` for a one-character separator, on the
character list: `"" ↦ [""]`, `"a." ↦ ["a", ""]`, as in JavaScript. -/
def splitCharsOn (sep : Char) : List Char → List (List Char)
  | [] => [[]]
  | c :: rest =>
    match splitCharsOn sep rest with
    | [] => if c = sep then [[], []] else [[c]]
    | cur :: more => if c = sep then [] :: cur :: more else (c :: cur) :: more

/-- `String.prototype.split(sep)` as a `String` operation. -/
def splitOnSep (sep : Char) (s : String) : List String :=
  (splitCharsOn sep s.data).map String.mk

/-- ASCII whitespace, the fragment of the `trim` character class the
bundle data uses. -/
def isWS (c : Char) : Bool :=
  c = ' ' ∨ c = '\t' ∨ c = '\n' ∨ c = '\r'

/-- `String.prototype.trim()` restricted to ASCII whitespace. -/
def trimStr (s : String) : String :=
  String.mk (((s.data.dropWhile isWS).reverse.dropWhile isWS).reverse)

/-- `getNestedValue(obj, path)` (i18n.svelte.ts lines 119-129): split the
path on `.` and descend; any non-object intermediate value or missing
key aborts with `undefined`.  Arrays and `Date`s, excluded there by the
runtime checks, do not occur in the modelled value type. -/
def getNestedValue (obj : Option Bundle) (path : String) : Option TValue :=
  match obj with
  | none => none
  | some b =>
    (splitOnSep '.' path).foldl
      (fun prev curr =>
        match prev with
        | some (TValue.node entries) => lookupStr curr entries
        | _ => none)
      (some (TValue.node b))

/-- `findTranslationValue` (lines 132-151): walk the primary locale's
bundle, and retry the fallback locale's bundle only when that walk gave
`undefined` and the locales differ.  The debug-only `console.warn` has
no observable effect beyond the console and is omitted. -/
def findTranslationValue (key : String) (primaryLocale fallbackLocale : Locale)
    (allTranslations : Locale → Option Bundle) : Option TValue :=
  match getNestedValue (allTranslations primaryLocale) key with
  | some v => some v
  | none =>
    if primaryLocale ≠ fallbackLocale then
      getNestedValue (allTranslations fallbackLocale) key
    else
      none

/-- A parameter value passed to `t` / `applyParams`.  `pnull` covers both
`null` and `undefined` property values; `plist` holds the elements after
the source's `value.map(item => String(item))` stringification; `pdate`
is a `Date` object identified by its epoch milliseconds. -/
inductive PValue where
  | pnull
  | pstr (s : String)
  | pnum (n : Int)
  | pdate (ms : Int)
  | pbool (b : Bool)
  | plist (items : List String)

/-- Interpolation parameters: a JavaScript record of parameter values. -/
abbrev Params := List (String × PValue)

/-- The environment-dependent formatting primitives used by
`applyParams`: `Date.parse`, `toLocaleDateString` / `toLocaleTimeString`
/ `toLocaleString` on dates, the relative-time branch (which reads the
current time and re-enters `t` on the `relativeTime.*` keys), the
JSON-options / default date fallback, `Intl.NumberFormat` with and
without a format spec, `Intl.ListFormat` and its availability test, and
`String(date)`.  Theorems quantify over this record. -/
structure FormatEnv where
  parseDate : String → Option Int
  fmtDate : Locale → Int → String
  fmtTime : Locale → Int → String
  fmtDateTime : Locale → Int → String
  fmtRelative : Locale → Int → String
  fmtDateFallback : Locale → String → Int → String
  fmtNumberWith : Locale → String → Int → String
  fmtNumberDefault : Locale → Int → String
  listFormatSupported : Bool
  fmtList : Locale → List String → String
  dateToString : Int → String

/-- The opening brace character. -/
def lbrace : Char := '\x7b'

/-- The closing brace character. -/
def rbrace : Char := '\x7d'

/-- `isDateLike` test of `applyParams` (line 173): a `Date`, a string
that `Date.parse` accepts, or any number. -/
def isDateLike (env : FormatEnv) : PValue → Bool
  | PValue.pdate _ => true
  | PValue.pstr s => (env.parseDate s).isSome
  | PValue.pnum _ => true
  | _ => false

/-- `new Date(value)` for a date-like value, as epoch milliseconds. -/
def toDateMs (env : FormatEnv) : PValue → Option Int
  | PValue.pdate ms => some ms
  | PValue.pstr s => env.parseDate s
  | PValue.pnum n => some n
  | _ => none

/-- The `switch (formatType)` of the date branch (lines 179-215):
`date` / `time` / `datetime` select the corresponding locale renderings,
`relative` the bucketed relative-time computation, and anything else the
JSON-options-or-default fallback. -/
def formatDateValue (env : FormatEnv) (loc : Locale) (ft : String) (ms : Int) : String :=
  match ft with
  | "date" => env.fmtDate loc ms
  | "time" => env.fmtTime loc ms
  | "datetime" => env.fmtDateTime loc ms
  | "relative" => env.fmtRelative loc ms
  | other => env.fmtDateFallback loc other ms

/-- `String(value)` on a parameter value.  `String` of a number prints
its decimal digits; `String` of an array joins on `","`. -/
def strOfValue (env : FormatEnv) : PValue → String
  | PValue.pnull => ""
  | PValue.pstr s => s
  | PValue.pnum n => toString n
  | PValue.pdate ms => env.dateToString ms
  | PValue.pbool b => if b then "true" else "false"
  | PValue.plist items => String.intercalate "," items

/-- `key` of the replacement callback: the trimmed text before the
first `:` of the trimmed placeholder expression
(`expr.trim().split(':')[0].trim()`). -/
def exprKey (expr : String) : String :=
  trimStr ((splitOnSep ':' (trimStr expr)).headD "")

/-- `formatType` of the callback: the trimmed text after the first `:`
of the trimmed expression, when a `:` is present
(`parts.length > 1 ? parts[1].trim() : null`). -/
def exprFormat (expr : String) : Option String :=
  match splitOnSep ':' (trimStr expr) with
  | _ :: p :: _ => some (trimStr p)
  | _ => none

/-- The replacement callback of `applyParams` (lines 158-304), applied
to the text captured between braces.  Looks `exprKey` up in `params` and
dispatches: missing parameter → empty string or a marked token in debug
mode; `null`/`undefined` → empty string; date-like value with a format
spec → date formatting; number → `Intl` number formatting or the default
locale rendering; array → list formatting or a `", "` join; anything
else → `String(value)`. -/
def replaceExpr (env : FormatEnv) (loc : Locale) (debug : Bool)
    (params : Params) (expr : String) : String :=
  match lookupStr (exprKey expr) params with
  | none => if debug then "[missing_param:" ++ exprKey expr ++ "]" else ""
  | some PValue.pnull => ""
  | some v =>
    match exprFormat expr with
    | some ft =>
      if isDateLike env v then
        match toDateMs env v with
        | some ms => formatDateValue env loc ft ms
        | none => strOfValue env v
      else
        match v with
        | PValue.pnum n => env.fmtNumberWith loc ft n
        | PValue.plist items =>
          if ft = "list" ∧ env.listFormatSupported then env.fmtList loc items
          else String.intercalate ", " items
        | w => strOfValue env w
    | none =>
      match v with
      | PValue.pnum n => env.fmtNumberDefault loc n
      | PValue.plist items => String.intercalate ", " items
      | w => strOfValue env w

/-- Attempt to read one `[^{}]+}` group right after an opening brace:
returns the captured contents and the remainder after the closing brace,
or `none` when the regex `/{([^{}]+)}/` does not match at this brace. -/
def grabContent (l : List Char) : Option (String × List Char) :=
  let content := l.takeWhile (fun c => c ≠ lbrace ∧ c ≠ rbrace)
  if content.isEmpty then none
  else
    match l.drop content.length with
    | c :: rest => if c = rbrace then some (String.mk content, rest) else none
    | [] => none

/-- The global-regex replacement loop of `str.replace(/{([^{}]+)}/g, …)`:
scan left to right; at an opening brace that starts a match, emit the
replacement and continue after the match, otherwise copy the character.
The fuel argument bounds the recursion; `fuel = l.length` always
suffices because every step consumes at least one character. -/
def scanTemplateAux (repl : String → String) : Nat → List Char → List Char
  | 0, rest => rest
  | _, [] => []
  | fuel + 1, c :: rest =>
    if c = lbrace then
      match grabContent rest with
      | some (content, rest') => (repl content).data ++ scanTemplateAux repl fuel rest'
      | none => c :: scanTemplateAux repl fuel rest
    else
      c :: scanTemplateAux repl fuel rest

/-- `applyParams(str, params?)` (lines 155-305).  With no parameter
record supplied it returns the template unchanged (`if (!params) return
str`); otherwise it rewrites every `{…}` placeholder through
`replaceExpr`. -/
def applyParams (env : FormatEnv) (loc : Locale) (debug : Bool)
    (str : String) (params : Option Params) : String :=
  match params with
  | none => str
  | some ps => String.mk (scanTemplateAux (replaceExpr env loc debug ps) str.data.length str.data)

/-- The module-level mutable state of `i18n.svelte.ts`: the bundle store
`translations`, the reactive `currentLocale`, the `failedLocaleLoads`
flags and the `config` record. -/
structure I18nState where
  translations : Locale → Option Bundle
  currentLocale : Locale
  failedLocaleLoads : Locale → Bool
  config : I18nConfig

/-- `export const locale = () => currentLocale` — the active-locale
getter. -/
def locale (st : I18nState) : Locale :=
  st.currentLocale

/-- The plural-category choice of `t` (line 470):
`count === 1 ? 'one' : 'other'`. -/
def pluralCategory (count : Int) : String :=
  if count = 1 then "one" else "other"

/-- The nullish-coalescing chain of `t`'s plural branch (lines 470-471):
`obj[count === 1 ? 'one' : 'other'] ?? obj['other']`. -/
def selectPluralRaw (entries : List (String × TValue)) (count : Int) : Option TValue :=
  match lookupStr (pluralCategory count) entries with
  | some v => some v
  | none => lookupStr "other" entries

/-- Plural selection combined with the `typeof pluralForm === 'string'`
guard of line 473: the template string chosen for `count`, or `none`
when neither the chosen category nor `other` holds a string. -/
def selectPlural (entries : List (String × TValue)) (count : Int) : Option String :=
  match selectPluralRaw entries count with
  | some (TValue.str s) => some s
  | _ => none

/-- The object-spread update `{ ...params, count }` restricted to one
key: overwrite the binding for `k` in place when present (JS keeps the
original property position), else append it at the end. -/
def setParam (ps : Params) (k : String) (v : PValue) : Params :=
  match ps with
  | [] => [(k, v)]
  | (k', w) :: rest => if k' = k then (k, v) :: rest else (k', w) :: setParam rest k v

/-- The missing-translation representation at the end of `t` (lines
495-514): the bracketed key in debug mode, otherwise
`parts[parts.length - 1] || key` — the last dot-separated segment, or
the whole key when that segment is the empty string. -/
def missingKeyRepr (debug : Bool) (key : String) : String :=
  if debug then
    "[" ++ key ++ "]"
  else
    let parts := splitOnSep '.' key
    let last := parts.getLastD ""
    if last = "" then key else last

/-- `t(key, params?, count?)` (lines 455-514).  Resolves the key through
`findTranslationValue`; an object value with a `count` goes through
plural selection and, when a template string was chosen, interpolation
with `{ ...params, count }` (the spread of an absent `params` being the
empty record); a string value is interpolated with `params` as given;
every other outcome falls through to `missingKeyRepr`.  The debug-only
`console.warn`s and the `window.__i18nMissingKeys` bookkeeping are
console-level effects and are omitted.  The source captures
`currentLocale` into a local `localeToUse` once at entry; in this
sequential model the capture is the same as reading the field. -/
def t (env : FormatEnv) (st : I18nState) (key : String)
    (params : Option Params) (count : Option Int) : String :=
  match findTranslationValue key st.currentLocale st.config.fallbackLocale st.translations with
  | some tv =>
    match tv, count with
    | TValue.node entries, some c =>
      match selectPluralRaw entries c with
      | some (TValue.str pluralForm) =>
        applyParams env st.currentLocale st.config.debug pluralForm
          (some (setParam ((params.getD [])) "count" (PValue.pnum c)))
      | _ => missingKeyRepr st.config.debug key
    | TValue.str s, _ => applyParams env st.currentLocale st.config.debug s params
    | TValue.node _, none => missingKeyRepr st.config.debug key
  | none => missingKeyRepr st.config.debug key

/-- Console diagnostics emitted by `setLocale`, modelled structurally:
the previously-failed warning (line 378), the load-failure error (line
421) and the falling-back warning (line 433). -/
inductive LogEvent where
  | warnPrevFailed (target fallback : Locale)
  | errorLoadFailed (target : Locale)
  | warnFallingBack (fallback : Locale)
deriving DecidableEq, Repr

/-- Outcome of one `setLocale` call: the state after the call, the
console diagnostics in emission order, and whether the dynamic import of
the bundle was attempted. -/
structure SetLocaleResult where
  state : I18nState
  logs : List LogEvent
  loaderInvoked : Bool

/-- Pointwise update of a locale-indexed map. -/
def updateAt (f : Locale → α) (k : Locale) (v : α) : Locale → α :=
  fun l => if l = k then v else f l

/-- `setLocale(newLocale, { silent })` (lines 371-444), with the bundle
loader (`await import(...)`) abstracted as a function returning the
loaded bundle or `none` on rejection, and the single awaited load
resolved sequentially (no interleaved call).  Structure: the
failed-locale short-circuit; the optimistic assignment of
`currentLocale`; the load attempt when the target is not `'en'` and not
yet stored; on success the store update and failure-flag clearing; on
failure the failure-flag set, the error report unless silent, and the
revert to the fallback locale when `currentLocale` still equals the
target. -/
def setLocale (loader : Locale → Option Bundle) (st : I18nState)
    (newLocale : Locale) (silent : Bool) : SetLocaleResult :=
  if st.failedLocaleLoads newLocale then
    let logs := if silent then [] else [LogEvent.warnPrevFailed newLocale st.config.fallbackLocale]
    let st' :=
      if st.currentLocale = newLocale then
        { st with currentLocale := st.config.fallbackLocale }
      else st
    { state := st', logs := logs, loaderInvoked := false }
  else
    let st1 := { st with currentLocale := newLocale }
    if newLocale ≠ Locale.en ∧ (st1.translations newLocale).isNone then
      match loader newLocale with
      | some bundle =>
        let cleared :=
          if st1.failedLocaleLoads newLocale then
            updateAt st1.failedLocaleLoads newLocale false
          else st1.failedLocaleLoads
        { state :=
            { st1 with
              translations := updateAt st1.translations newLocale (some bundle)
              failedLocaleLoads := cleared }
          logs := []
          loaderInvoked := true }
      | none =>
        let st2 := { st1 with failedLocaleLoads := updateAt st1.failedLocaleLoads newLocale true }
        let logs1 := if silent then [] else [LogEvent.errorLoadFailed newLocale]
        if st2.currentLocale = newLocale then
          { state := { st2 with currentLocale := st2.config.fallbackLocale }
            logs := logs1 ++ (if silent then [] else [LogEvent.warnFallingBack st2.config.fallbackLocale])
            loaderInvoked := true }
        else
          { state := st2, logs := logs1, loaderInvoked := true }
    else
      { state := st1, logs := [], loaderInvoked := false }

/-- `Partial<I18nConfig>`: the argument of `configure`. -/
structure ConfigureOptions where
  persistLocale : Option Bool
  localStorageKey : Option String
  fallbackLocale : Option Locale
  debug : Option Bool

/-- `configure(options)` (lines 313-321).  The first three fields are
overwritten only when explicitly provided; the `debug` field is
re-evaluated on every call: the provided value when present, otherwise
the environment's `dev` flag. -/
def configure (dev : Bool) (cfg : I18nConfig) (o : ConfigureOptions) : I18nConfig :=
  let c1 := match o.persistLocale with
    | some v => { cfg with persistLocale := v }
    | none => cfg
  let c2 := match o.localStorageKey with
    | some v => { c1 with localStorageKey := v }
    | none => c1
  let c3 := match o.fallbackLocale with
    | some v => { c2 with fallbackLocale := v }
    | none => c2
  { c3 with debug := match o.debug with | some d => d | none => dev }

/-! ### The schema validator (`i18nSchema.ts`) -/

mutual

/-- A JSON value, the input shape accepted by `jsonValueSchema`.  Array
elements and object entries are carried by the two companion types so
that the validator below is plain structural recursion. -/
inductive Json where
  | str (s : String)
  | num (n : Int)
  | jbool (b : Bool)
  | null
  | arr (xs : JsonItems)
  | obj (entries : JsonEntries)

/-- The elements of a JSON array, in order. -/
inductive JsonItems where
  | nil
  | cons (hd : Json) (tl : JsonItems)

/-- The entries of a JSON object, in insertion order. -/
inductive JsonEntries where
  | nil
  | cons (k : String) (v : Json) (tl : JsonEntries)

end

/-- Property lookup on a JSON object (the `in` test / indexing of the
source). -/
def jsonLookup (k : String) : JsonEntries → Option Json
  | JsonEntries.nil => none
  | JsonEntries.cons k' v tl => if k' = k then some v else jsonLookup k tl

/-- One element of a zod issue path: an object key or an array index. -/
inductive PathElem where
  | key (k : String)
  | idx (i : Nat)
deriving DecidableEq, Repr

/-- The custom issues `checkI18nNode` can add, modelled structurally;
each constructor corresponds to one `ctx.addIssue` message template of
the source, and carries the issue path plus the data interpolated into
the message. -/
inductive Issue where
  | pluralMustBeObject (path : List PathElem) (pluralKey : String)
  | missingRequiredCategories (path : List PathElem) (pluralKey : String) (missing : List String)
  | invalidPluralCategory (path : List PathElem) (category : String)
  | pluralValueNotString (path : List PathElem) (category : String)
  | invalidDateFormat (path : List PathElem) (format : String)
deriving DecidableEq, Repr

/-- `I18nSchemaOptions`: the caller-supplied validator configuration.
Both identifier forms of the source (explicit key array and predicate)
are modelled as a predicate; for an array `ks` the predicate is
membership, matching `ks.includes(key)`. -/
structure I18nSchemaOptions where
  pluralKeyIdentifier : String → Bool
  requiredPluralKeys : Option (List String)
  optionalPluralKeys : Option (List String)
  allowedDateFormats : Option (List String)
  validateAllPlaceholdersSyntax : Option Bool

/-- The options after default resolution (`resolvedOptions`). -/
structure ResolvedOptions where
  pluralKeyIdentifier : String → Bool
  requiredPluralKeys : List String
  optionalPluralKeys : List String
  allowedDateFormats : List String
  validateAllPlaceholdersSyntax : Bool

/-- Default resolution at the top of `createI18nSchema`. -/
def resolveOptions (o : I18nSchemaOptions) : ResolvedOptions :=
  { pluralKeyIdentifier := o.pluralKeyIdentifier
    requiredPluralKeys := o.requiredPluralKeys.getD ["one", "other"]
    optionalPluralKeys := o.optionalPluralKeys.getD ["zero", "two", "few", "many"]
    allowedDateFormats := o.allowedDateFormats.getD ["date", "relative"]
    validateAllPlaceholdersSyntax := o.validateAllPlaceholdersSyntax.getD false }

/-- Membership in `allAllowedPluralKeys`, the set built from the
required and optional categories. -/
def allowedPluralKey (opts : ResolvedOptions) (k : String) : Bool :=
  (opts.requiredPluralKeys ++ opts.optionalPluralKeys).contains k

/-- A character of the regex class `[a-zA-Z0-9_]`. -/
def isWordChar (c : Char) : Bool :=
  c.isAlpha ∨ c.isDigit ∨ c = '_'

/-- Attempt to match `date:([a-zA-Z0-9_]+)}` right after an opening
brace: the captured format token and the remainder after the closing
brace, or `none`. -/
def matchDateAt : List Char → Option (String × List Char)
  | 'd' :: 'a' :: 't' :: 'e' :: ':' :: rest =>
    let w := rest.takeWhile isWordChar
    if w.isEmpty then none
    else
      match rest.drop w.length with
      | c :: rest' => if c = rbrace then some (String.mk w, rest') else none
      | [] => none
  | _ => none

/-- The format tokens of all `/{date:([a-zA-Z0-9_]+)}/g` matches, in
occurrence order.  Scanning character by character is equivalent to the
source's `exec` loop because a later match must start with an opening
brace and no opening brace can occur inside a match. -/
def dateTokens : List Char → List String
  | [] => []
  | c :: rest =>
    match (if c = lbrace then matchDateAt rest else none) with
    | some (tok, _) => tok :: dateTokens rest
    | none => dateTokens rest

/-- The date-placeholder loop of `checkI18nNode`'s string branch (lines
619-629 of the combined source): one `invalidDateFormat` issue per
`{date:token}` occurrence whose token is not allowed, in occurrence
order. -/
def dateIssuesLoop (allowed : List String) (path : List PathElem) : List Char → List Issue
  | [] => []
  | c :: rest =>
    (match (if c = lbrace then matchDateAt rest else none) with
     | some (tok, _) =>
       if allowed.contains tok then [] else [Issue.invalidDateFormat path tok]
     | none => []) ++ dateIssuesLoop allowed path rest

/-- The full string-leaf check: the date-placeholder loop.  The
`validateAllPlaceholdersSyntax` branch of the source contains a
matching loop with an empty body and adds no issues, so it contributes
nothing here. -/
def stringIssues (opts : ResolvedOptions) (path : List PathElem) (s : String) : List Issue :=
  dateIssuesLoop opts.allowedDateFormats path s.data

/-- The per-category loop over the keys present in a plural object:
a disallowed category yields `invalidPluralCategory` and skips the rest
of its iteration; an allowed category must hold a string (else
`pluralValueNotString`); an allowed string value recurses, which for a
string means the string-leaf check. -/
def pluralEntriesIssues (opts : ResolvedOptions) (cpath : List PathElem) :
    JsonEntries → List Issue
  | JsonEntries.nil => []
  | JsonEntries.cons pk pv rest =>
    (if ¬ allowedPluralKey opts pk then
      [Issue.invalidPluralCategory (cpath ++ [PathElem.key pk]) pk]
    else
      match pv with
      | Json.str s => stringIssues opts (cpath ++ [PathElem.key pk]) s
      | _ => [Issue.pluralValueNotString (cpath ++ [PathElem.key pk]) pk])
    ++ pluralEntriesIssues opts cpath rest

/-- Validation of one child identified as a plural container (lines
651-705): a non-object value yields `pluralMustBeObject`; an object
yields one `missingRequiredCategories` issue naming every absent
required category (when any is absent), followed by the per-category
checks. -/
def checkPluralObject (opts : ResolvedOptions) (cpath : List PathElem)
    (pluralKey : String) : Json → List Issue
  | Json.obj pentries =>
    let missing := opts.requiredPluralKeys.filter (fun c => (jsonLookup c pentries).isNone)
    (if missing.isEmpty then [] else [Issue.missingRequiredCategories cpath pluralKey missing])
      ++ pluralEntriesIssues opts cpath pentries
  | other =>
    let _ := other
    [Issue.pluralMustBeObject cpath pluralKey]

mutual

/-- The recursive walker `checkI18nNode` (lines 613-718): a string leaf
runs the placeholder checks; an object dispatches every child either
into the plural-container validation or into a recursive walk; an array
recurses on its elements by index; numbers, booleans and `null` pass. -/
def checkI18nNode (opts : ResolvedOptions) (node : Json) (path : List PathElem) : List Issue :=
  match node with
  | Json.str s => stringIssues opts path s
  | Json.obj entries => checkObjEntries opts entries path
  | Json.arr xs => checkArrItems opts xs 0 path
  | _ => []

/-- The `for (const [key, value] of Object.entries(node))` loop. -/
def checkObjEntries (opts : ResolvedOptions) (es : JsonEntries) (path : List PathElem) : List Issue :=
  match es with
  | JsonEntries.nil => []
  | JsonEntries.cons k v tl =>
    (if opts.pluralKeyIdentifier k then
      checkPluralObject opts (path ++ [PathElem.key k]) k v
    else
      checkI18nNode opts v (path ++ [PathElem.key k]))
    ++ checkObjEntries opts tl path

/-- The `node.forEach((element, index) => …)` loop. -/
def checkArrItems (opts : ResolvedOptions) (xs : JsonItems) (i : Nat) (path : List PathElem) : List Issue :=
  match xs with
  | JsonItems.nil => []
  | JsonItems.cons x tl =>
    checkI18nNode opts x (path ++ [PathElem.idx i]) ++ checkArrItems opts tl (i + 1) path

end

/-- `createI18nSchema(options).parse`'s `superRefine` pass over a root
object that already satisfies the base `jsonValueSchema` (well-formed
JSON is guaranteed here by the `Json` type): the accumulated custom
issues, empty meaning the bundle is valid. -/
def validate (o : I18nSchemaOptions) (root : JsonEntries) : List Issue :=
  checkI18nNode (resolveOptions o) (Json.obj root) []

/-! ### Concrete fixtures for witnesses and counterexamples -/

/-- A concrete formatting environment used to instantiate the
environment-quantified theorems on concrete inputs. -/
def testEnv : FormatEnv :=
  { parseDate := fun _ => none
    fmtDate := fun _ _ => "1/1/2023"
    fmtTime := fun _ _ => "00:00:00"
    fmtDateTime := fun _ _ => "1/1/2023, 00:00:00"
    fmtRelative := fun _ _ => "just now"
    fmtDateFallback := fun _ _ _ => "1/1/2023, 00:00:00"
    fmtNumberWith := fun _ _ n => toString n
    fmtNumberDefault := fun _ n => toString n
    listFormatSupported := false
    fmtList := fun _ xs => String.intercalate ", " xs
    dateToString := fun _ => "Sun Jan 01 2023" }

/-- The default configuration record of the source (`const config`),
with the `dev`-dependent debug flag at its production value. -/
def prodConfig : I18nConfig :=
  { persistLocale := true
    localStorageKey := "app_locale"
    fallbackLocale := Locale.en
    debug := false }

/-- A small English bundle. -/
def enBundle : Bundle :=
  [("greeting", TValue.str "Hello, {name}!"),
   ("plain", TValue.str "Hello"),
   ("items", TValue.node [("one", TValue.str "{count} item"), ("other", TValue.str "{count} items")]),
   ("nested", TValue.node [("deep", TValue.str "Deep value")])]

/-- A small Spanish bundle missing the keys that only English has. -/
def esBundle : Bundle :=
  [("greeting", TValue.str "Hola, {name}!")]

/-- A state whose active locale is Spanish with English as fallback,
both bundles loaded, no failures recorded, production configuration. -/
def testState : I18nState :=
  { translations := fun l =>
      match l with
      | Locale.en => some enBundle
      | Locale.es => some esBundle
      | Locale.fr => none
    currentLocale := Locale.es
    failedLocaleLoads := fun _ => false
    config := prodConfig }

/-- `testState` with English active. -/
def testStateEn : I18nState :=
  { testState with currentLocale := Locale.en }

/-! ### Helper lemmas -/

theorem lookupStr_append (k : String) (ps qs : List (String × α)) :
    lookupStr k (ps ++ qs) = (lookupStr k ps).orElse (fun _ => lookupStr k qs) := by
  induction ps with
  | nil => simp [lookupStr, Option.orElse]
  | cons p rest ih =>
    obtain ⟨k', v⟩ := p
    by_cases h : k' = k <;> simp [lookupStr, h, ih, Option.orElse]

theorem lookupStr_setParam_self (ps : Params) (k : String) (v : PValue) :
    lookupStr k (setParam ps k v) = some v := by
  induction ps with
  | nil => simp [setParam, lookupStr]
  | cons p rest ih =>
    obtain ⟨k₀, w⟩ := p
    by_cases h₀ : k₀ = k
    · simp [setParam, h₀, lookupStr]
    · simp [setParam, h₀, lookupStr, ih]

theorem lookupStr_setParam_other (ps : Params) (k : String) (v : PValue)
    (k' : String) (h : k' ≠ k) :
    lookupStr k' (setParam ps k v) = lookupStr k' ps := by
  have hne : ¬k = k' := fun hc => h hc.symm
  induction ps with
  | nil => simp [setParam, lookupStr, hne]
  | cons p rest ih =>
    obtain ⟨k₀, w⟩ := p
    by_cases h₀ : k₀ = k
    · subst h₀
      simp [setParam, lookupStr, hne]
    · simp [setParam, h₀, lookupStr, ih]

theorem selectPlural_eq_some_iff (entries : List (String × TValue)) (c : Int) (s : String) :
    selectPlural entries c = some s ↔ selectPluralRaw entries c = some (TValue.str s) := by
  unfold selectPlural
  cases h : selectPluralRaw entries c with
  | none => simp
  | some v => cases v <;> simp_all

/-! ### C1: key resolution through active and fallback bundles -/

/-- C1: for every key and parameter set, if the key resolves to a
template string in the active locale's bundle then `t` returns that
template interpolated; if the active-locale walk yields nothing and the
key resolves to a template string in the fallback bundle (with active ≠
fallback), `t` returns the fallback's template interpolated; and the
resolution helper returns the active locale's value whenever the active
walk succeeds, retrying the fallback locale only when it does not. -/
theorem translate_resolution (env : FormatEnv) (st : I18nState) (key : String)
    (params : Option Params) (count : Option Int) (tmpl : String) :
    (getNestedValue (st.translations st.currentLocale) key = some (TValue.str tmpl) →
      t env st key params count = applyParams env st.currentLocale st.config.debug tmpl params)
    ∧ (getNestedValue (st.translations st.currentLocale) key = none →
        st.currentLocale ≠ st.config.fallbackLocale →
        getNestedValue (st.translations st.config.fallbackLocale) key = some (TValue.str tmpl) →
        t env st key params count = applyParams env st.currentLocale st.config.debug tmpl params)
    ∧ (∀ v, getNestedValue (st.translations st.currentLocale) key = some v →
        findTranslationValue key st.currentLocale st.config.fallbackLocale st.translations = some v) := by
  refine ⟨?_, ?_, ?_⟩
  · intro h
    unfold t findTranslationValue
    rw [h]
  · intro h hne h'
    unfold t findTranslationValue
    rw [h, if_pos hne, h']
  · intro v h
    unfold findTranslationValue
    rw [h]

/-- Witness for C1 at concrete states: an active-bundle hit interpolates
the active template, and a key present only in the fallback bundle
resolves against the fallback. -/
theorem translate_resolution_witness :
    t testEnv testStateEn "greeting" (some [("name", PValue.pstr "Eve")]) none = "Hello, Eve!"
    ∧ t testEnv testState "nested.deep" none none = "Deep value" := by
  constructor
  · exact ((translate_resolution testEnv testStateEn "greeting"
      (some [("name", PValue.pstr "Eve")]) none "Hello, {name}!").1 rfl).trans rfl
  · exact ((translate_resolution testEnv testState "nested.deep" none none
      "Deep value").2.1 rfl (by decide) rfl).trans rfl

/-! ### C2: plural-category selection -/

/-- C2: plural selection chooses category `one` exactly when the count
is 1 and `other` otherwise; an absent chosen category falls back to the
`other` entry; with `other` also absent no template is selected; and the
four concrete examples of the specification hold. -/
theorem plural_selection (entries : List (String × TValue)) (c : Int) :
    (pluralCategory 1 = "one")
    ∧ (c ≠ 1 → pluralCategory c = "other")
    ∧ (lookupStr (pluralCategory c) entries = none →
        selectPluralRaw entries c = lookupStr "other" entries)
    ∧ (lookupStr (pluralCategory c) entries = none →
        lookupStr "other" entries = none →
        selectPlural entries c = none)
    ∧ selectPlural [("one", TValue.str "A"), ("other", TValue.str "B")] 1 = some "A"
    ∧ selectPlural [("one", TValue.str "A"), ("other", TValue.str "B")] 5 = some "B"
    ∧ selectPlural [("other", TValue.str "B")] 1 = some "B"
    ∧ selectPlural [("one", TValue.str "A")] 5 = none := by
  refine ⟨rfl, ?_, ?_, ?_, rfl, rfl, rfl, rfl⟩
  · intro h
    simp [pluralCategory, h]
  · intro h
    unfold selectPluralRaw
    rw [h]
  · intro h h'
    unfold selectPlural selectPluralRaw
    rw [h, h']

/-- Witness for C2: the fallback-to-`other` rule applied at a concrete
plural object with the chosen category absent. -/
theorem plural_selection_witness :
    selectPluralRaw [("other", TValue.str "B")] 1 = lookupStr "other" [("other", TValue.str "B")]
    ∧ selectPlural [("one", TValue.str "A")] 5 = none := by
  refine ⟨(plural_selection [("other", TValue.str "B")] 1).2.2.1 rfl, ?_⟩
  exact (plural_selection [("one", TValue.str "A")] 5).2.2.2.1 rfl rfl

/-! ### C3: missing interpolation parameters -/

/-- C3 counterexample: when no parameter record is supplied at all,
`applyParams` returns the template unchanged — the placeholder is left
intact rather than rendered as the empty string, so
`render("Hello, {name}!")` with no record is not `"Hello, !"`. -/
theorem applyParams_no_record_counterexample :
    applyParams testEnv Locale.en false "Hello, {name}!" none = "Hello, {name}!"
    ∧ applyParams testEnv Locale.en false "Hello, {name}!" none ≠ "Hello, !" :=
  ⟨rfl, by decide⟩

/-- C3 (amended): for every *supplied* parameter record with no entry
for the placeholder's identifier, the placeholder renders as the empty
string in non-debug mode and as the marked `[missing_param:…]` token in
debug mode — in particular `render("Hello, {name}!", ps) = "Hello, !"`
for every such `ps` — while a call with no parameter record at all
returns the template unchanged. -/
theorem applyParams_missing_param (env : FormatEnv) (loc : Locale) (debug : Bool)
    (ps : Params) (expr : String) :
    (lookupStr (exprKey expr) ps = none →
      replaceExpr env loc debug ps expr =
        if debug then "[missing_param:" ++ exprKey expr ++ "]" else "")
    ∧ (lookupStr "name" ps = none →
        applyParams env loc false "Hello, {name}!" (some ps) = "Hello, !")
    ∧ (lookupStr "name" ps = none →
        applyParams env loc true "Hello, {name}!" (some ps) = "Hello, [missing_param:name]!")
    ∧ (∀ s, applyParams env loc debug s none = s) := by
  refine ⟨?_, ?_, ?_, fun s => rfl⟩
  · intro h
    unfold replaceExpr
    rw [h]
  · intro h
    have hr : replaceExpr env loc false ps "name" = "" := by
      unfold replaceExpr
      rw [show exprKey "name" = "name" from rfl, h]
      rfl
    calc applyParams env loc false "Hello, {name}!" (some ps)
        = String.mk ("Hello, ".data ++
            ((replaceExpr env loc false ps "name").data ++ "!".data)) := rfl
      _ = "Hello, !" := by rw [hr]; rfl
  · intro h
    have hr : replaceExpr env loc true ps "name" = "[missing_param:name]" := by
      unfold replaceExpr
      rw [show exprKey "name" = "name" from rfl, h]
      rfl
    calc applyParams env loc true "Hello, {name}!" (some ps)
        = String.mk ("Hello, ".data ++
            ((replaceExpr env loc true ps "name").data ++ "!".data)) := rfl
      _ = "Hello, [missing_param:name]!" := by rw [hr]; rfl

/-- Witness for C3 (amended) at the empty parameter record, the
specification's own example. -/
theorem applyParams_missing_param_witness :
    applyParams testEnv Locale.en false "Hello, {name}!" (some []) = "Hello, !" :=
  (applyParams_missing_param testEnv Locale.en false [] "name").2.1 rfl

/-! ### C4: missing keys never escape -/

/-- Helper: the missing-key representation is non-empty in debug mode,
and non-empty in non-debug mode whenever the key itself is non-empty. -/
theorem missingKeyRepr_ne_empty (d : Bool) (key : String) (h : d = true ∨ key ≠ "") :
    missingKeyRepr d key ≠ "" := by
  unfold missingKeyRepr
  cases d with
  | true =>
    simp only [if_true]
    intro hc
    have hlen := congrArg String.length hc
    rw [String.length_append, String.length_append] at hlen
    simp only [String.length, List.length] at hlen
    omega
  | false =>
    have hk : key ≠ "" := by
      rcases h with h | h
      · exact absurd h (by simp)
      · exact h
    simp only [Bool.false_eq_true, if_false]
    split
    · exact hk
    · next hlast => exact hlast

/-- C4 counterexample: the empty key is absent from both bundles of the
concrete state, yet `t` returns the empty string in non-debug mode
(`parts[parts.length - 1] || key` is `"" || ""`), contradicting the
claim that the result is non-empty for all key strings including the
empty key. -/
theorem translate_empty_key_counterexample :
    findTranslationValue "" testState.currentLocale testState.config.fallbackLocale
        testState.translations = none
    ∧ testState.config.debug = false
    ∧ t testEnv testState "" none none = "" :=
  ⟨rfl, rfl, rfl⟩

/-- C4 (amended): for every key absent from both the active and the
fallback bundle and for every params and count, `t` returns the
missing-key representation — the bracketed key in debug mode, otherwise
the last dot-separated segment when that segment is non-empty and the
whole key otherwise.  The result is non-empty in debug mode for every
key, and in non-debug mode for every non-empty key; the empty key in
non-debug mode yields the empty string. -/
theorem translate_missing_key (env : FormatEnv) (st : I18nState) (key : String)
    (params : Option Params) (count : Option Int)
    (h : findTranslationValue key st.currentLocale st.config.fallbackLocale
        st.translations = none) :
    t env st key params count = missingKeyRepr st.config.debug key
    ∧ (st.config.debug = true → t env st key params count ≠ "")
    ∧ (key ≠ "" → t env st key params count ≠ "") := by
  have h1 : t env st key params count = missingKeyRepr st.config.debug key := by
    unfold t
    rw [h]
  refine ⟨h1, ?_, ?_⟩
  · intro hd
    rw [h1]
    exact missingKeyRepr_ne_empty _ _ (Or.inl hd)
  · intro hk
    rw [h1]
    exact missingKeyRepr_ne_empty _ _ (Or.inr hk)

/-- Witness for C4 (amended): a key absent from both bundles yields a
non-empty string, and indeed the last path segment. -/
theorem translate_missing_key_witness :
    t testEnv testState "not.found" none none ≠ "" :=
  (translate_missing_key testEnv testState "not.found" none none rfl).2.2 (by decide)

/-! ### C5: failed-locale short-circuit of setLocale -/

/-- A state whose French locale is recorded as previously failed and is
currently active, for exercising the short-circuit. -/
def failedFrState : I18nState :=
  { testState with
    currentLocale := Locale.fr
    failedLocaleLoads := fun l => match l with | Locale.fr => true | _ => false }

/-- C5: for every target in the failed-load set, `setLocale` returns
without invoking the loader, leaves the bundle store (and the failure
flags and configuration) unchanged, sets the active locale to the
fallback locale exactly when the active locale equals the target, and
reports the previously-failed warning unless `silent`. -/
theorem setLocale_failed_shortcircuit (loader : Locale → Option Bundle) (st : I18nState)
    (target : Locale) (silent : Bool) (h : st.failedLocaleLoads target = true) :
    (setLocale loader st target silent).loaderInvoked = false
    ∧ (setLocale loader st target silent).state.translations = st.translations
    ∧ (setLocale loader st target silent).state.failedLocaleLoads = st.failedLocaleLoads
    ∧ (setLocale loader st target silent).state.config = st.config
    ∧ (setLocale loader st target silent).state.currentLocale =
        (if st.currentLocale = target then st.config.fallbackLocale else st.currentLocale)
    ∧ (setLocale loader st target silent).logs =
        (if silent then [] else [LogEvent.warnPrevFailed target st.config.fallbackLocale]) := by
  unfold setLocale
  rw [h]
  simp only [if_true]
  by_cases hc : st.currentLocale = target <;> simp [hc]

/-- Witness for C5: switching to the previously-failed active French
locale reverts to English, keeps the store, skips the loader and warns. -/
theorem setLocale_failed_shortcircuit_witness :
    (setLocale (fun _ => none) failedFrState Locale.fr false).loaderInvoked = false
    ∧ (setLocale (fun _ => none) failedFrState Locale.fr false).state.translations =
        failedFrState.translations
    ∧ (setLocale (fun _ => none) failedFrState Locale.fr false).state.currentLocale = Locale.en
    ∧ (setLocale (fun _ => none) failedFrState Locale.fr false).logs =
        [LogEvent.warnPrevFailed Locale.fr Locale.en] := by
  have h := setLocale_failed_shortcircuit (fun _ => none) failedFrState Locale.fr false rfl
  exact ⟨h.1, h.2.1, h.2.2.2.2.1.trans (by decide), h.2.2.2.2.2.trans rfl⟩

/-! ### C6: load failure reverts to the fallback locale -/

/-- C6: when `setLocale` actually invokes the loader (target not
previously failed, not `'en'`, bundle not yet stored) and the load
fails, the failure flag for the target is set, the optimistically set
active locale is reverted to the fallback locale, the error and the
falling-back warning are reported unless `silent`, and the active-locale
getter afterwards returns the fallback locale. -/
theorem setLocale_load_failure (loader : Locale → Option Bundle) (st : I18nState)
    (target : Locale) (silent : Bool)
    (hflag : st.failedLocaleLoads target = false)
    (hen : target ≠ Locale.en)
    (hmiss : st.translations target = none)
    (hload : loader target = none) :
    (setLocale loader st target silent).loaderInvoked = true
    ∧ (setLocale loader st target silent).state.failedLocaleLoads target = true
    ∧ (setLocale loader st target silent).state.currentLocale = st.config.fallbackLocale
    ∧ locale (setLocale loader st target silent).state = st.config.fallbackLocale
    ∧ (setLocale loader st target silent).logs =
        (if silent then []
         else [LogEvent.errorLoadFailed target,
               LogEvent.warnFallingBack st.config.fallbackLocale]) := by
  unfold setLocale
  rw [hflag]
  simp only [Bool.false_eq_true, if_false]
  rw [if_pos ⟨hen, by rw [show ({ st with currentLocale := target } : I18nState).translations
    = st.translations from rfl, hmiss]; rfl⟩]
  rw [hload]
  simp only [if_pos rfl]
  refine ⟨rfl, ?_, rfl, rfl, ?_⟩
  · simp [updateAt]
  · cases silent <;> rfl

/-- Witness for C6: a failing load of French from an English state
leaves English active, marks French failed and reports both
diagnostics. -/
theorem setLocale_load_failure_witness :
    (setLocale (fun _ => none) testStateEn Locale.fr false).state.currentLocale = Locale.en
    ∧ (setLocale (fun _ => none) testStateEn Locale.fr false).state.failedLocaleLoads Locale.fr
        = true
    ∧ (setLocale (fun _ => none) testStateEn Locale.fr false).logs =
        [LogEvent.errorLoadFailed Locale.fr, LogEvent.warnFallingBack Locale.en] := by
  have h := setLocale_load_failure (fun _ => none) testStateEn Locale.fr false rfl
    (by decide) rfl rfl
  exact ⟨h.2.2.1.trans rfl, h.2.1, h.2.2.2.2.trans rfl⟩

/-! ### C7: reconfiguration frame -/

/-- The empty partial configuration: no field explicitly provided. -/
def emptyOptions : ConfigureOptions :=
  { persistLocale := none, localStorageKey := none, fallbackLocale := none, debug := none }

/-- The default configuration with the debug flag switched on, as after
an earlier `configure({debug: true})` in a production environment. -/
def cfgDebugOn : I18nConfig :=
  { prodConfig with debug := true }

/-- C7 counterexample: reconfiguring with *no* provided fields does not
keep the previous `debug` value — `configure` re-evaluates `debug` to
the environment's `dev` flag, so a configuration with `debug = true`
in a non-dev environment silently drops back to `debug = false`. -/
theorem configure_unprovided_debug_counterexample :
    cfgDebugOn.debug = true
    ∧ emptyOptions.debug = none
    ∧ (configure false cfgDebugOn emptyOptions).debug = false :=
  ⟨rfl, rfl, rfl⟩

/-- C7 (amended): a reconfigure call keeps every unprovided field among
`persistLocale`, the storage key and `fallbackLocale` at its previous
value and overwrites provided ones; the `debug` field instead is set to
the provided value when present and re-evaluated to the environment's
`dev` flag when absent (so it keeps its previous value only when that
value equals `dev`). -/
theorem configure_frame (dev : Bool) (cfg : I18nConfig) (o : ConfigureOptions) :
    (configure dev cfg o).persistLocale =
      (match o.persistLocale with | some v => v | none => cfg.persistLocale)
    ∧ (configure dev cfg o).localStorageKey =
        (match o.localStorageKey with | some v => v | none => cfg.localStorageKey)
    ∧ (configure dev cfg o).fallbackLocale =
        (match o.fallbackLocale with | some v => v | none => cfg.fallbackLocale)
    ∧ (configure dev cfg o).debug =
        (match o.debug with | some v => v | none => dev) := by
  obtain ⟨p, sk, fl, d⟩ := o
  cases p <;> cases sk <;> cases fl <;> cases d <;> exact ⟨rfl, rfl, rfl, rfl⟩

/-! ### C8: missing required plural categories -/

/-- Recognizer for the missing-required-categories issue kind. -/
def Issue.isMissingReq : Issue → Bool
  | Issue.missingRequiredCategories _ _ _ => true
  | _ => false

/-- Helper: the date-placeholder loop never emits a
missing-required-categories issue. -/
theorem dateIssuesLoop_no_missingReq (allowed : List String) (path : List PathElem) :
    ∀ l : List Char, (dateIssuesLoop allowed path l).filter Issue.isMissingReq = []
  | [] => rfl
  | c :: rest => by
    unfold dateIssuesLoop
    rw [List.filter_append, dateIssuesLoop_no_missingReq allowed path rest]
    cases hm : (if c = lbrace then matchDateAt rest else none) with
    | none => simp
    | some p =>
      obtain ⟨tok, r⟩ := p
      by_cases ht : allowed.contains tok <;> simp [ht, Issue.isMissingReq]

/-- Helper: the string-leaf check never emits a
missing-required-categories issue. -/
theorem stringIssues_no_missingReq (opts : ResolvedOptions) (path : List PathElem) (s : String) :
    (stringIssues opts path s).filter Issue.isMissingReq = [] :=
  dateIssuesLoop_no_missingReq opts.allowedDateFormats path s.data

/-- Helper: the per-category loop over a plural object's present keys
never emits a missing-required-categories issue. -/
theorem pluralEntriesIssues_no_missingReq (opts : ResolvedOptions) (cpath : List PathElem) :
    ∀ es : JsonEntries, (pluralEntriesIssues opts cpath es).filter Issue.isMissingReq = []
  | JsonEntries.nil => rfl
  | JsonEntries.cons pk pv tl => by
    unfold pluralEntriesIssues
    rw [List.filter_append, pluralEntriesIssues_no_missingReq opts cpath tl]
    by_cases ha : allowedPluralKey opts pk
    · simp only [ha, not_true, if_false]
      cases pv <;> simp [stringIssues_no_missingReq, Issue.isMissingReq]
    · simp [ha, Issue.isMissingReq]

/-- The validator configuration of the C8 example: `itemCount` is the
plural container, required categories default to `{one, other}`. -/
def cfgOneOther : I18nSchemaOptions :=
  { pluralKeyIdentifier := fun k => k == "itemCount"
    requiredPluralKeys := some ["one", "other"]
    optionalPluralKeys := none
    allowedDateFormats := none
    validateAllPlaceholdersSyntax := none }

/-- The bundle `{itemCount: {one: "1", other: "n"}}`. -/
def bundleItemCountComplete : JsonEntries :=
  JsonEntries.cons "itemCount"
    (Json.obj (JsonEntries.cons "one" (Json.str "1")
      (JsonEntries.cons "other" (Json.str "n") JsonEntries.nil)))
    JsonEntries.nil

/-- The bundle `{itemCount: {one: "1"}}`, missing `other`. -/
def bundleItemCountMissingOther : JsonEntries :=
  JsonEntries.cons "itemCount"
    (Json.obj (JsonEntries.cons "one" (Json.str "1") JsonEntries.nil))
    JsonEntries.nil

/-- C8: at every node identified as a plural container, if any required
plural category is absent then the node's issues contain exactly one
missing-required-categories issue, and it names all of the missing
categories; with no category absent, no such issue is emitted.  On the
concrete bundles: `{itemCount: {one, other}}` with required `{one,
other}` validates with zero issues, and the same bundle missing `other`
yields exactly one such issue naming `other`. -/
theorem plural_required_categories :
    (∀ (opts : ResolvedOptions) (cpath : List PathElem) (k : String) (pentries : JsonEntries),
      (opts.requiredPluralKeys.filter (fun c => (jsonLookup c pentries).isNone) ≠ [] →
        (checkPluralObject opts cpath k (Json.obj pentries)).filter Issue.isMissingReq
          = [Issue.missingRequiredCategories cpath k
              (opts.requiredPluralKeys.filter (fun c => (jsonLookup c pentries).isNone))])
      ∧ (opts.requiredPluralKeys.filter (fun c => (jsonLookup c pentries).isNone) = [] →
          (checkPluralObject opts cpath k (Json.obj pentries)).filter Issue.isMissingReq = []))
    ∧ validate cfgOneOther bundleItemCountComplete = []
    ∧ validate cfgOneOther bundleItemCountMissingOther
        = [Issue.missingRequiredCategories [PathElem.key "itemCount"] "itemCount" ["other"]] := by
  refine ⟨?_, rfl, rfl⟩
  intro opts cpath k pentries
  constructor
  · intro hne
    unfold checkPluralObject
    rw [List.filter_append, pluralEntriesIssues_no_missingReq opts cpath pentries]
    rw [if_neg (by simpa [List.isEmpty_iff] using hne)]
    simp [Issue.isMissingReq]
  · intro he
    unfold checkPluralObject
    rw [List.filter_append, pluralEntriesIssues_no_missingReq opts cpath pentries]
    rw [if_pos (by simpa [List.isEmpty_iff] using he)]
    rfl

/-- Witness for C8's quantified part at the concrete missing-`other`
plural object. -/
theorem plural_required_categories_witness :
    (checkPluralObject (resolveOptions cfgOneOther) [PathElem.key "itemCount"] "itemCount"
      (Json.obj (JsonEntries.cons "one" (Json.str "1") JsonEntries.nil))).filter
        Issue.isMissingReq
      = [Issue.missingRequiredCategories [PathElem.key "itemCount"] "itemCount" ["other"]] := by
  have h := (plural_required_categories.1 (resolveOptions cfgOneOther)
    [PathElem.key "itemCount"] "itemCount"
    (JsonEntries.cons "one" (Json.str "1") JsonEntries.nil)).1 (by decide)
  exact h.trans rfl

/-! ### C9: date-format token validation -/

/-- The validator configuration of the C9 example: no plural containers,
allowed date formats left at the default `{date, relative}`. -/
def cfgDatesDefault : I18nSchemaOptions :=
  { pluralKeyIdentifier := fun _ => false
    requiredPluralKeys := none
    optionalPluralKeys := none
    allowedDateFormats := none
    validateAllPlaceholdersSyntax := none }

/-- The bundle `{key: "Created {date:timestamp}"}`. -/
def bundleDateTimestamp : JsonEntries :=
  JsonEntries.cons "key" (Json.str "Created {date:timestamp}") JsonEntries.nil

/-- C9: within every string leaf, the emitted issues are exactly one
`invalidDateFormat` issue, at the leaf's path and carrying the offending
token, per `{date:token}` occurrence whose token is not in the
allowed-date-format set, in occurrence order; concretely, a template
containing `{date:timestamp}` against the default allowed set `{date,
relative}` yields exactly one issue referencing `timestamp`. -/
theorem date_format_validation :
    (∀ (allowed : List String) (path : List PathElem) (l : List Char),
      dateIssuesLoop allowed path l
        = ((dateTokens l).filter (fun f => !(allowed.contains f))).map
            (Issue.invalidDateFormat path))
    ∧ (∀ (opts : ResolvedOptions) (path : List PathElem) (s : String),
        checkI18nNode opts (Json.str s) path
          = ((dateTokens s.data).filter (fun f => !(opts.allowedDateFormats.contains f))).map
              (Issue.invalidDateFormat path))
    ∧ validate cfgDatesDefault bundleDateTimestamp
        = [Issue.invalidDateFormat [PathElem.key "key"] "timestamp"] := by
  have hgen : ∀ (allowed : List String) (path : List PathElem) (l : List Char),
      dateIssuesLoop allowed path l
        = ((dateTokens l).filter (fun f => !(allowed.contains f))).map
            (Issue.invalidDateFormat path) := by
    intro allowed path l
    induction l with
    | nil => rfl
    | cons c rest ih =>
      unfold dateIssuesLoop dateTokens
      cases hm : (if c = lbrace then matchDateAt rest else none) with
      | none => simpa using ih
      | some p =>
        obtain ⟨tok, r⟩ := p
        by_cases ht : tok ∈ allowed <;> simp [ht, ih, List.filter_cons]
  exact ⟨hgen, fun opts path s => hgen opts.allowedDateFormats path s.data, rfl⟩

/-! ### C10: the count argument is merged into the plural parameters -/

/-- C10: whenever `t` resolves a key to a plural object and plural
selection picks a template string, the result interpolates that template
with `{ ...params, count }`; in those merged parameters the `count`
entry is the count argument of the call — overriding any `count` entry
already present in `params` and leaving every other entry unchanged —
and a bare `{count}` template therefore renders exactly the
default-formatted count argument. -/
theorem translate_plural_count_merge (env : FormatEnv) (st : I18nState) (key : String)
    (params : Option Params) (c : Int) (entries : List (String × TValue)) (s : String)
    (hfind : findTranslationValue key st.currentLocale st.config.fallbackLocale
        st.translations = some (TValue.node entries))
    (hsel : selectPlural entries c = some s) :
    t env st key params (some c)
      = applyParams env st.currentLocale st.config.debug s
          (some (setParam (params.getD []) "count" (PValue.pnum c)))
    ∧ lookupStr "count" (setParam (params.getD []) "count" (PValue.pnum c))
        = some (PValue.pnum c)
    ∧ (∀ k', k' ≠ "count" →
        lookupStr k' (setParam (params.getD []) "count" (PValue.pnum c))
          = lookupStr k' (params.getD []))
    ∧ (s = "{count}" →
        t env st key params (some c) = env.fmtNumberDefault st.currentLocale c) := by
  have hraw : selectPluralRaw entries c = some (TValue.str s) :=
    (selectPlural_eq_some_iff entries c s).mp hsel
  have hstep : t env st key params (some c)
      = (match selectPluralRaw entries c with
         | some (TValue.str pluralForm) =>
           applyParams env st.currentLocale st.config.debug pluralForm
             (some (setParam (params.getD []) "count" (PValue.pnum c)))
         | _ => missingKeyRepr st.config.debug key) := by
    unfold t
    rw [hfind]
  have h1 : t env st key params (some c)
      = applyParams env st.currentLocale st.config.debug s
          (some (setParam (params.getD []) "count" (PValue.pnum c))) :=
    hstep.trans (by rw [hraw])
  refine ⟨h1, lookupStr_setParam_self _ _ _,
    fun k' hk => lookupStr_setParam_other _ _ _ _ hk, ?_⟩
  intro hs
  subst hs
  rw [h1]
  have hrepl : replaceExpr env st.currentLocale st.config.debug
      (setParam (params.getD []) "count" (PValue.pnum c)) "count"
      = env.fmtNumberDefault st.currentLocale c := by
    unfold replaceExpr
    rw [show exprKey "count" = "count" from rfl, lookupStr_setParam_self]
    rfl
  calc applyParams env st.currentLocale st.config.debug "{count}"
        (some (setParam (params.getD []) "count" (PValue.pnum c)))
      = String.mk ((replaceExpr env st.currentLocale st.config.debug
          (setParam (params.getD []) "count" (PValue.pnum c)) "count").data ++ []) := rfl
    _ = env.fmtNumberDefault st.currentLocale c := by
        rw [hrepl, List.append_nil]

/-- Witness for C10: a plural call whose `params` already carry a stale
`count` entry renders the count argument, not the stale value. -/
theorem translate_plural_count_merge_witness :
    t testEnv testStateEn "items" (some [("count", PValue.pstr "stale")]) (some 5)
      = "5 items" := by
  have h := (translate_plural_count_merge testEnv testStateEn "items"
    (some [("count", PValue.pstr "stale")]) 5
    [("one", TValue.str "{count} item"), ("other", TValue.str "{count} items")]
    "{count} items" rfl rfl).1
  exact h.trans rfl

end PhraseChain
